import Mathlib

/-!
# gpt4all-chat `server.cpp`: the OpenAI-compatible completion bridge

A shallow embedding of `gpt4all-chat/server.cpp`:

* `modelToName`, `modelToJson` (lines 14-53),
* the three route handlers of `Server::start` (lines 76-114),
* `Server::handleCompletionRequest` (lines 120-288).

Conventions of the embedding.

* A `QString` is the list of its characters.
* A JSON number is an exact decimal (`Decimal`); the rounding a C++ `double` or
  `float` applies is outside the model.  `int` is the 32-bit two's-complement integer.
* `Q_ASSERT` is a build-dependent check: the flag `asserts` says whether the build
  keeps it (a debug build) or compiles it out (`QT_NO_DEBUG`).
* The Qt JSON parser, the model registry and the generation engine (`ChatLLM`) are
  collaborators outside `server.cpp`; the handlers are functions of what those
  collaborators return, and every call into the engine is recorded in an effect trace.
* What the handlers print on `stdout` and `stderr` is not part of the model.
* `QList::first()` on an empty list is a fault that ends the run.
-/

namespace Gpt4allServer

/-! ## Strings -/

/-- A `QString`, as the list of its characters. -/
abbrev QString := List Char

/-- `QString::startsWith`. -/
def startsWith (s p : QString) : Bool := decide (p <+: s)

/-- `QString::endsWith`. -/
def endsWith (s p : QString) : Bool := decide (p <:+ s)

/-- `QString::remove(0, n)`: the string without its first `n` characters (empty when it
has fewer). -/
def remove0 (s : QString) (n : Nat) : QString := s.drop n

/-- `QString::chop(n)`: the string without its last `n` characters (empty when it has
fewer). -/
def chop (s : QString) (n : Nat) : QString := s.take (s.length - n)

/-- The literal `"ggml-"`. -/
def ggmlPrefix : QString := ['g', 'g', 'm', 'l', '-']

/-- The literal `".bin"`. -/
def binSuffix : QString := ['.', 'b', 'i', 'n']

/-! ## Machine integers -/

/-- The value of a 32-bit pattern read as a C++ `int`. -/
def toInt32 (n : Nat) : Int :=
  if n % 2 ^ 32 < 2 ^ 31 then ((n % 2 ^ 32 : Nat) : Int) else ((n % 2 ^ 32 : Nat) : Int) - 2 ^ 32

/-- Subtraction of two `quint32` values: modulo `2 ^ 32`.  The two counters it is applied
to are members of `ChatLLM`, declared `quint32` in `chatllm.h`; for an unsigned type of more
than 32 bits the `int` of the difference is the same, since `toInt32` keeps the low 32 bits. -/
def subU32 (a b : Nat) : Nat := (a % 2 ^ 32 + 2 ^ 32 - b % 2 ^ 32) % 2 ^ 32

/-- Whether an integer is representable as a C++ `int`. -/
def inIntRange (k : Int) : Prop := -(2 ^ 31) ≤ k ∧ k < 2 ^ 31

instance (k : Int) : Decidable (inIntRange k) := by
  unfold inIntRange; infer_instance

/-! ## JSON values -/

/-- A JSON number as an exact decimal: `mantissa / 10 ^ scale`. -/
structure Decimal where
  mantissa : Int
  scale : Nat
  deriving DecidableEq, Repr

/-- The decimal of an integer. -/
def Decimal.ofInt (k : Int) : Decimal := ⟨k, 0⟩

/-- Whether the decimal is a whole number. -/
def Decimal.isWhole (d : Decimal) : Bool := d.mantissa % (10 : Int) ^ d.scale == 0

/-- The integer a whole decimal stands for. -/
def Decimal.toWhole (d : Decimal) : Int := d.mantissa / (10 : Int) ^ d.scale

/-- A `QJsonValue`. -/
inductive JsonValue where
  | null
  | bool (b : Bool)
  | double (d : Decimal)
  | string (s : QString)
  | array (a : List JsonValue)
  | object (o : List (String × JsonValue))
  | undefined

/-- A `QJsonObject`: its members, looked up by key. -/
abbrev QJsonObject := List (String × JsonValue)

/-- `QJsonObject::contains`. -/
def contains (o : QJsonObject) (key : String) : Bool := (o.lookup key).isSome

/-- `QJsonObject::operator[]` on a const object: the member, `Undefined` when absent. -/
def value (o : QJsonObject) (key : String) : JsonValue := (o.lookup key).getD JsonValue.undefined

/-- `QJsonObject::insert`: replaces the member of that key, or adds one. -/
def insert (o : QJsonObject) (key : String) (v : JsonValue) : QJsonObject :=
  match o with
  | [] => [(key, v)]
  | (k, w) :: rest => if k = key then (key, v) :: rest else (k, w) :: insert rest key v

/-- `QJsonValue::isString`. -/
def JsonValue.isString : JsonValue → Bool
  | .string _ => true
  | _ => false

/-- `QJsonValue::toString`: the string, the null (empty) string for any other type. -/
def JsonValue.toQString : JsonValue → QString
  | .string s => s
  | _ => []

/-- `QJsonValue::toInt`: the number when it is whole and representable as `int`,
and `0` otherwise. -/
def JsonValue.toInt : JsonValue → Int
  | .double d => if d.isWhole ∧ inIntRange d.toWhole then d.toWhole else 0
  | _ => 0

/-- `QJsonValue::toDouble`: the number, `0` for any other type. -/
def JsonValue.toDouble : JsonValue → Decimal
  | .double d => d
  | _ => Decimal.ofInt 0

/-- `QJsonValue::toBool`: the boolean, `false` for any other type. -/
def JsonValue.toBool : JsonValue → Bool
  | .bool b => b
  | _ => false

/-- `QJsonValue::toArray`: the array, the empty array for any other type. -/
def JsonValue.toArray : JsonValue → List JsonValue
  | .array a => a
  | _ => []

/-! ## Model descriptors (`server.cpp` lines 14-53) -/

/-- The fields of `ModelInfo` that `server.cpp` reads. -/
structure ModelInfo where
  filename : QString
  installed : Bool
  deriving DecidableEq, Repr

/-- `modelToName` (lines 14-22).  `none` is a failed `Q_ASSERT` in a build that keeps
assertions; a build without them strips five and four characters whatever the name is. -/
def modelToName (asserts : Bool) (info : ModelInfo) : Option QString :=
  let modelName := info.filename
  if asserts && !startsWith modelName ggmlPrefix then none
  else
    let modelName := remove0 modelName 5
    if asserts && !endsWith modelName binSuffix then none
    else some (chop modelName 4)

/-- The naming convention the two assertions of `modelToName` state: the file name starts
with `"ggml-"` and what follows that prefix ends with `".bin"`. -/
def followsConvention (f : QString) : Prop :=
  ggmlPrefix <+: f ∧ binSuffix <:+ f.drop 5

instance (f : QString) : Decidable (followsConvention f) := by
  unfold followsConvention; infer_instance

/-- The permission object of `modelToJson` (lines 37-49). -/
def permissionObj : QJsonObject :=
  let o : QJsonObject := []
  let o := insert o "id" (.string "foobarbaz".toList)
  let o := insert o "object" (.string "model_permission".toList)
  let o := insert o "created" (.string "does it really matter?".toList)
  let o := insert o "allow_create_engine" (.bool false)
  let o := insert o "allow_sampling" (.bool false)
  let o := insert o "allow_logprobs" (.bool false)
  let o := insert o "allow_search_indices" (.bool false)
  let o := insert o "allow_view" (.bool true)
  let o := insert o "allow_fine_tuning" (.bool false)
  let o := insert o "organization" (.string "*".toList)
  let o := insert o "group" .null
  let o := insert o "is_blocking" (.bool false)
  o

/-- `modelToJson` (lines 24-53), given the name `modelToName` returned. -/
def modelJsonOfName (modelName : QString) : QJsonObject :=
  let model : QJsonObject := []
  let model := insert model "id" (.string modelName)
  let model := insert model "object" (.string "model".toList)
  let model := insert model "created" (.string "who can keep track?".toList)
  let model := insert model "owned_by" (.string "humanity".toList)
  let model := insert model "root" (.string modelName)
  let model := insert model "parent" .null
  let permissions : List JsonValue := [] ++ [.object permissionObj]
  let model := insert model "permissions" (.array permissions)
  model

/-- `modelToJson` (lines 24-53); `none` when `modelToName` fails its assertion. -/
def modelToJson (asserts : Bool) (info : ModelInfo) : Option QJsonObject :=
  (modelToName asserts info).map modelJsonOfName

/-! ## Responses and outcomes -/

/-- `QHttpServerResponder::StatusCode::Ok`. -/
def StatusCode.Ok : Nat := 200

/-- `QHttpServerResponder::StatusCode::NoContent`. -/
def StatusCode.NoContent : Nat := 204

/-- `QHttpServerResponder::StatusCode::BadRequest`. -/
def StatusCode.BadRequest : Nat := 400

/-- `QHttpServerResponder::StatusCode::InternalServerError`. -/
def StatusCode.InternalServerError : Nat := 500

/-- A `QHttpServerResponse`: built from a JSON object (status `Ok`, that body) or from a
bare status code (no body). -/
structure QHttpServerResponse where
  statusCode : Nat
  body : Option QJsonObject

/-- `QHttpServerResponse(const QJsonObject &)`. -/
def QHttpServerResponse.ofJson (o : QJsonObject) : QHttpServerResponse := ⟨StatusCode.Ok, some o⟩

/-- `QHttpServerResponse(StatusCode)`. -/
def QHttpServerResponse.ofStatus (c : Nat) : QHttpServerResponse := ⟨c, none⟩

/-- A success status (2xx). -/
def isSuccess (c : Nat) : Prop := 200 ≤ c ∧ c < 300

/-- A client-error status (4xx). -/
def isClientError (c : Nat) : Prop := 400 ≤ c ∧ c < 500

instance (c : Nat) : Decidable (isSuccess c) := by unfold isSuccess; infer_instance

instance (c : Nat) : Decidable (isClientError c) := by unfold isClientError; infer_instance

/-- Why a handler stopped without a response. -/
inductive Fault where
  /-- A `Q_ASSERT` of `modelToName` failed. -/
  | assertion
  /-- `QList::first()` was called on an empty list. -/
  | firstOfEmpty
  deriving DecidableEq, Repr

/-- What a handler ends with: a response, or a fault that ends the process. -/
inductive Outcome where
  | response (r : QHttpServerResponse)
  | aborted (f : Fault)

/-! ## `GET /v1/models` and `GET /v1/models/<arg>` (lines 76-108) -/

/-- The loop of the list-models handler (lines 82-86), with `data` as accumulator. -/
def listModelsLoop (asserts : Bool) : List ModelInfo → List JsonValue → Option (List JsonValue)
  | [], data => some data
  | info :: rest, data =>
    if !info.installed then listModelsLoop asserts rest data
    else
      match modelToJson asserts info with
      | none => none
      | some j => listModelsLoop asserts rest (data ++ [JsonValue.object j])

/-- The list-models handler (lines 77-89). -/
def handleListModels (asserts : Bool) (modelList : List ModelInfo) : Outcome :=
  let root : QJsonObject := []
  let root := insert root "object" (.string "list".toList)
  match listModelsLoop asserts modelList [] with
  | none => .aborted .assertion
  | some data =>
    let root := insert root "data" (.array data)
    .response (QHttpServerResponse.ofJson root)

/-- The loop of the get-model handler (lines 96-105); `object` is the result so far. -/
def getModelLoop (asserts : Bool) (model : QString) :
    List ModelInfo → QJsonObject → Option QJsonObject
  | [], object => some object
  | info :: rest, object =>
    if !info.installed then getModelLoop asserts model rest object
    else
      match modelToName asserts info with
      | none => none
      | some modelName =>
        if model = modelName then modelToJson asserts info
        else getModelLoop asserts model rest object

/-- The get-model handler (lines 93-107). -/
def handleGetModel (asserts : Bool) (modelList : List ModelInfo) (model : QString) : Outcome :=
  match getModelLoop asserts model modelList [] with
  | none => .aborted .assertion
  | some object => .response (QHttpServerResponse.ofJson object)

/-! ## `POST /v1/completions` (lines 120-288) -/

/-- The arguments of `ChatLLM::prompt`, in the order of the call at lines 244-253. -/
structure PromptArgs where
  prompt : QString
  promptTemplate : QString
  n_predict : Int
  top_k : Int
  top_p : Decimal
  temp : Decimal
  n_batch : Int
  repeat_penalty : Decimal
  repeat_penalty_tokens : Int
  n_threads : Int

/-- A call from the handler into the engine or the chat. -/
inductive Effect where
  | loadModel (model : QString)
  | resetContextProtected
  | requestServerNewPromptResponsePair (prompt : QString)
  | prompt (args : PromptArgs)

/-- The engine the handler drives (`ChatLLM`, `LLM` and the chat, none of them part of
`server.cpp`): each call is a function of the engine state. -/
structure Engine (σ : Type) where
  loadModel : QString → σ → Bool × σ
  resetContextProtected : σ → σ
  requestServerNewPromptResponsePair : QString → σ → σ
  prompt : PromptArgs → σ → Bool × σ
  response : σ → QString
  /-- The member `m_promptTokens`, a `quint32`. -/
  promptTokens : σ → Nat
  /-- The member `m_promptResponseTokens`, a `quint32`. -/
  promptResponseTokens : σ → Nat
  top_k : σ → Int
  n_batch : σ → Int
  repeat_penalty : σ → Decimal
  repeat_last_n : σ → Int
  threadCount : σ → Int

/-- The loop that looks the requested model up (lines 142-149): `some true` when an
installed entry has that name, `some false` when none has, `none` on a failed assertion. -/
def findModelLoop (asserts : Bool) (model : QString) : List ModelInfo → Option Bool
  | [] => some false
  | info :: rest =>
    if !info.installed then findModelLoop asserts model rest
    else
      match modelToName asserts info with
      | none => none
      | some modelName => if model = modelName then some true else findModelLoop asserts model rest

/-- The literal `"<|endoftext|>"`. -/
def endOfText : QString := "<|endoftext|>".toList

/-- The list `prompts` (lines 161-172). -/
def readPrompts (body : QJsonObject) : List QString :=
  if contains body "prompt" then
    let promptValue := value body "prompt"
    if promptValue.isString then [promptValue.toQString]
    else promptValue.toArray.map JsonValue.toQString
  else [endOfText]

/-- The list `stop` (lines 206-216). -/
def readStop (body : QJsonObject) : List QString :=
  if contains body "stop" then
    let stopValue := value body "stop"
    if stopValue.isString then [stopValue.toQString]
    else stopValue.toArray.map JsonValue.toQString
  else []

/-- The local variables of `handleCompletionRequest` read from the body (lines 161-234). -/
structure Locals where
  prompts : List QString
  suffix : QString
  max_tokens : Int
  temperature : Decimal
  top_p : Decimal
  n : Int
  stream : Bool
  logprobs : Int
  echo : Bool
  stop : List QString
  presence_penalty : Decimal
  frequency_penalty : Decimal
  best_of : Int
  user : QString

/-- Lines 161-234, statement by statement: every variable starts at its default and is
assigned where the source assigns it. -/
def readLocals (body : QJsonObject) : Locals :=
  let prompts := readPrompts body
  let suffix : QString := []
  let suffix := if contains body "suffix" then (value body "suffix").toQString else suffix
  let max_tokens : Int := 16
  let max_tokens := if contains body "max_tokens" then (value body "max_tokens").toInt else max_tokens
  let temperature : Decimal := Decimal.ofInt 1
  let temperature :=
    if contains body "temperature" then (value body "temperature").toDouble else temperature
  let top_p : Decimal := Decimal.ofInt 1
  let top_p := if contains body "top_p" then (value body "top_p").toDouble else top_p
  let n : Int := 1
  let n := if contains body "n" then (value body "n").toInt else n
  let stream := false
  let stream := if contains body "stream" then (value body "stream").toBool else stream
  let logprobs : Int := -1
  let logprobs := if contains body "logprobs" then (value body "logprobs").toInt else logprobs
  let echo := false
  let echo := if contains body "echo" then (value body "echo").toBool else echo
  let stop := readStop body
  let presence_penalty : Decimal := Decimal.ofInt 0
  let top_p :=
    if contains body "presence_penalty" then (value body "presence_penalty").toDouble else top_p
  let frequency_penalty : Decimal := Decimal.ofInt 0
  let top_p :=
    if contains body "frequency_penalty" then (value body "frequency_penalty").toDouble else top_p
  let best_of : Int := 1
  let logprobs := if contains body "best_of" then (value body "best_of").toInt else logprobs
  let user : QString := []
  let suffix := if contains body "user" then (value body "user").toQString else suffix
  { prompts := prompts, suffix := suffix, max_tokens := max_tokens, temperature := temperature,
    top_p := top_p, n := n, stream := stream, logprobs := logprobs, echo := echo, stop := stop,
    presence_penalty := presence_penalty, frequency_penalty := frequency_penalty,
    best_of := best_of, user := user }

/-- The arguments of the `prompt` call (lines 244-253): the first prompt, the identity
template, three values of the request and the engine's own settings. -/
def promptArgs {σ : Type} (E : Engine σ) (l : Locals) (first : QString) (s : σ) : PromptArgs :=
  { prompt := first
    promptTemplate := "%1".toList
    n_predict := l.max_tokens
    top_k := E.top_k s
    top_p := l.top_p
    temp := l.temperature
    n_batch := E.n_batch s
    repeat_penalty := E.repeat_penalty s
    repeat_penalty_tokens := E.repeat_last_n s
    n_threads := E.threadCount s }

/-- The object `usage` (lines 274-278). -/
def usageObject (promptTokens promptResponseTokens : Nat) : QJsonObject :=
  let usage : QJsonObject := []
  let usage := insert usage "prompt_tokens" (.double (Decimal.ofInt (toInt32 promptTokens)))
  let usage := insert usage "completion_tokens"
    (.double (Decimal.ofInt (toInt32 (subU32 promptResponseTokens promptTokens))))
  let usage := insert usage "total_tokens" (.double (Decimal.ofInt (toInt32 promptResponseTokens)))
  usage

/-- The object `responseObject` (lines 259-279). -/
def responseObject {σ : Type} (E : Engine σ) (now : Int) (model : QString) (s : σ) : QJsonObject :=
  let responseObject : QJsonObject := []
  let responseObject := insert responseObject "id" (.string "foobarbaz".toList)
  let responseObject := insert responseObject "object" (.string "text_completion".toList)
  let responseObject := insert responseObject "created" (.double (Decimal.ofInt now))
  let responseObject := insert responseObject "model" (.string model)
  let choice : QJsonObject := []
  let choice := insert choice "text" (.string (E.response s))
  let choice := insert choice "index" (.double (Decimal.ofInt 0))
  let choice := insert choice "logprobs" .null
  let choice := insert choice "finish_reason" (.string "stop".toList)
  let choices : List JsonValue := [.object choice]
  let responseObject := insert responseObject "choices" (.array choices)
  let usage := usageObject (E.promptTokens s) (E.promptResponseTokens s)
  insert responseObject "usage" (.object usage)

/-- What a run of the completion handler leaves: its outcome, the calls it made into the
engine in order, and the engine state after them. -/
structure Run (σ : Type) where
  outcome : Outcome
  trace : List Effect
  state : σ

/-- `Server::handleCompletionRequest` (lines 120-288).  `document` is what
`QJsonDocument::fromJson` made of the request body: `none` when it set `err.error`.
`modelList` is the registry's list and `now` is `QDateTime::currentSecsSinceEpoch()`. -/
def handleCompletionRequest {σ : Type} (E : Engine σ) (asserts : Bool)
    (modelList : List ModelInfo) (now : Int) (document : Option JsonValue) (s : σ) : Run σ :=
  match document with
  | some (.object body) =>
    if !contains body "model" then
      ⟨.response (.ofStatus StatusCode.NoContent), [], s⟩
    else
      let model := (value body "model").toQString
      match findModelLoop asserts model modelList with
      | none => ⟨.aborted .assertion, [], s⟩
      | some false => ⟨.response (.ofStatus StatusCode.BadRequest), [], s⟩
      | some true =>
        let loaded := E.loadModel model s
        if !loaded.1 then
          ⟨.response (.ofStatus StatusCode.InternalServerError), [.loadModel model], loaded.2⟩
        else
          let l := readLocals body
          let s2 := E.resetContextProtected loaded.2
          match l.prompts.head? with
          | none => ⟨.aborted .firstOfEmpty, [.loadModel model, .resetContextProtected], s2⟩
          | some first =>
            let s3 := E.requestServerNewPromptResponsePair first s2
            let args := promptArgs E l first s3
            let prompted := E.prompt args s3
            let trace := [.loadModel model, .resetContextProtected,
              .requestServerNewPromptResponsePair first, .prompt args]
            if !prompted.1 then
              ⟨.response (.ofStatus StatusCode.InternalServerError), trace, prompted.2⟩
            else
              ⟨.response (.ofJson (responseObject E now model prompted.2)), trace, prompted.2⟩
  | _ => ⟨.response (.ofStatus StatusCode.NoContent), [], s⟩

/-- The four calls of a request that reaches generation. -/
def fullTrace (model first : QString) (args : PromptArgs) : List Effect :=
  [.loadModel model, .resetContextProtected, .requestServerNewPromptResponsePair first,
    .prompt args]

/-- A request is accepted: its body has a `"model"` member, an installed entry has that
name, and the engine loads it. -/
def accepted {σ : Type} (E : Engine σ) (asserts : Bool) (modelList : List ModelInfo)
    (body : QJsonObject) (s : σ) : Prop :=
  contains body "model" = true ∧
  findModelLoop asserts (value body "model").toQString modelList = some true ∧
  (E.loadModel (value body "model").toQString s).1 = true

/-- The engine state at the `prompt` call: after the load, the reset and the transcript
notification. -/
def stateAtPrompt {σ : Type} (E : Engine σ) (body : QJsonObject) (first : QString) (s : σ) : σ :=
  E.requestServerNewPromptResponsePair first
    (E.resetContextProtected (E.loadModel (value body "model").toQString s).2)

/-! ## A sample engine and registry, for evaluating the handlers -/

/-- An engine that loads every model, answers every prompt with `"ok"` and counts three
prompt tokens of five in all. -/
def sampleEngine : Engine Unit :=
  { loadModel := fun _ s => (true, s)
    resetContextProtected := fun s => s
    requestServerNewPromptResponsePair := fun _ s => s
    prompt := fun _ s => (true, s)
    response := fun _ => "ok".toList
    promptTokens := fun _ => 3
    promptResponseTokens := fun _ => 5
    top_k := fun _ => 40
    n_batch := fun _ => 9
    repeat_penalty := fun _ => ⟨11, 1⟩
    repeat_last_n := fun _ => 10
    threadCount := fun _ => 4 }

/-- A registry with one installed model, `ggml-x.bin`, and one that is not installed. -/
def sampleModelList : List ModelInfo :=
  [⟨"ggml-y.bin".toList, false⟩, ⟨"ggml-x.bin".toList, true⟩]

/-- The sample engine with the two token counters set. -/
def counterEngine (promptTokens promptResponseTokens : Nat) : Engine Unit :=
  { sampleEngine with
    promptTokens := fun _ => promptTokens
    promptResponseTokens := fun _ => promptResponseTokens }

/-! ## `modelToName` -/

theorem startsWith_iff (s p : QString) : startsWith s p = true ↔ p <+: s := by
  simp [startsWith]

theorem endsWith_iff (s p : QString) : endsWith s p = true ↔ p <:+ s := by
  simp [endsWith]

theorem chop_append_binSuffix (n : QString) : chop (n ++ binSuffix) 4 = n := by
  simp [chop, binSuffix]

theorem followsConvention_build (n : QString) : followsConvention (ggmlPrefix ++ n ++ binSuffix) := by
  constructor
  · exact ⟨n ++ binSuffix, by simp⟩
  · refine ⟨n, ?_⟩
    simp [ggmlPrefix]

/-- A name that follows the convention is `"ggml-" ++ n ++ ".bin"` for some `n`. -/
theorem followsConvention_split {f : QString} (h : followsConvention f) :
    ∃ n, f = ggmlPrefix ++ n ++ binSuffix := by
  obtain ⟨⟨t, ht⟩, ⟨u, hu⟩⟩ := h
  subst ht
  have hd : (ggmlPrefix ++ t).drop 5 = t := by simp [ggmlPrefix]
  rw [hd] at hu
  exact ⟨u, by rw [← hu, List.append_assoc]⟩

/-- On a name built by the convention `modelToName` returns the middle part, in every
build. -/
theorem modelToName_build (asserts : Bool) (n : QString) (installed : Bool) :
    modelToName asserts ⟨ggmlPrefix ++ n ++ binSuffix, installed⟩ = some n := by
  have h1 : startsWith (ggmlPrefix ++ n ++ binSuffix) ggmlPrefix = true := by
    rw [startsWith_iff]; exact ⟨n ++ binSuffix, by simp⟩
  have hd : remove0 (ggmlPrefix ++ n ++ binSuffix) 5 = n ++ binSuffix := by
    simp [remove0, ggmlPrefix]
  have h2 : endsWith (n ++ binSuffix) binSuffix = true := by
    rw [endsWith_iff]; exact ⟨n, rfl⟩
  simp only [modelToName, h1, hd, h2, chop_append_binSuffix]
  simp

/-- On a name that follows the convention `modelToName` succeeds in every build. -/
theorem modelToName_of_convention (asserts : Bool) (info : ModelInfo)
    (h : followsConvention info.filename) :
    ∃ n, modelToName asserts info = some n ∧ ggmlPrefix ++ n ++ binSuffix = info.filename := by
  obtain ⟨n, hn⟩ := followsConvention_split h
  refine ⟨n, ?_, hn.symm⟩
  obtain ⟨f, i⟩ := info
  simp only at hn
  subst hn
  exact modelToName_build asserts n i

/-- A build without assertions never fails `modelToName`. -/
theorem modelToName_release (info : ModelInfo) :
    modelToName false info = some (chop (remove0 info.filename 5) 4) := by
  simp [modelToName]

/-- C6. Model id derivation round-trips and is injective on the naming convention: for a
file name `f` that follows the convention, `"ggml-" ++ modelToName f ++ ".bin" = f`; two
such file names with the same derived id are equal; and for every string `s`,
`modelToName ("ggml-" ++ s ++ ".bin") = s`. -/
theorem modelToName_roundtrip_injective (asserts : Bool) (f g : ModelInfo) (s : QString)
    (hf : followsConvention f.filename) (hg : followsConvention g.filename) :
    (∃ n, modelToName asserts f = some n ∧ ggmlPrefix ++ n ++ binSuffix = f.filename) ∧
    (modelToName asserts f = modelToName asserts g → f.filename = g.filename) ∧
    (∀ installed, modelToName asserts ⟨ggmlPrefix ++ s ++ binSuffix, installed⟩ = some s) := by
  obtain ⟨n, hn, hnf⟩ := modelToName_of_convention asserts f hf
  obtain ⟨m, hm, hmg⟩ := modelToName_of_convention asserts g hg
  refine ⟨⟨n, hn, hnf⟩, ?_, fun i => modelToName_build asserts s i⟩
  intro h
  rw [hn, hm] at h
  have hnm : n = m := Option.some.inj h
  rw [← hnf, ← hmg, hnm]

/-- C6 at `ggml-x.bin`, `ggml-x.bin` and the id `x`. -/
theorem modelToName_roundtrip_injective_witness :
    followsConvention "ggml-x.bin".toList ∧
    ((∃ n, modelToName true ⟨"ggml-x.bin".toList, true⟩ = some n ∧
        ggmlPrefix ++ n ++ binSuffix = "ggml-x.bin".toList) ∧
      (modelToName true ⟨"ggml-x.bin".toList, true⟩ = modelToName true ⟨"ggml-x.bin".toList, false⟩ →
        "ggml-x.bin".toList = "ggml-x.bin".toList) ∧
      (∀ installed, modelToName true ⟨ggmlPrefix ++ ['x'] ++ binSuffix, installed⟩ = some ['x'])) :=
  ⟨by decide, modelToName_roundtrip_injective true ⟨"ggml-x.bin".toList, true⟩
    ⟨"ggml-x.bin".toList, false⟩ ['x'] (by decide) (by decide)⟩

/-! ## The model routes -/

theorem value_modelJsonOfName_id (n : QString) : value (modelJsonOfName n) "id" = .string n := by
  rfl

theorem value_modelJsonOfName_root (n : QString) :
    value (modelJsonOfName n) "root" = .string n := by
  rfl

/-- The list-models loop on a registry whose installed entries follow the convention:
it appends one entry per installed model, in registry order. -/
theorem listModelsLoop_of_convention (asserts : Bool) (modelList : List ModelInfo)
    (h : ∀ m ∈ modelList, m.installed = true → followsConvention m.filename)
    (data : List JsonValue) :
    ∃ more, listModelsLoop asserts modelList data = some (data ++ more) ∧
      (modelList.filter (fun m => m.installed)).map
        (fun m => (modelToJson asserts m).map JsonValue.object) = more.map some := by
  induction modelList generalizing data with
  | nil => exact ⟨[], by simp [listModelsLoop], by simp⟩
  | cons info rest ih =>
    have hrest : ∀ m ∈ rest, m.installed = true → followsConvention m.filename :=
      fun m hm => h m (List.mem_cons_of_mem _ hm)
    cases hi : info.installed with
    | false =>
      obtain ⟨more, h1, h2⟩ := ih hrest data
      exact ⟨more, by simp [listModelsLoop, hi, h1], by simp [hi, h2]⟩
    | true =>
      obtain ⟨n, hn, _⟩ := modelToName_of_convention asserts info
        (h info (List.mem_cons_self _ _) hi)
      obtain ⟨more, h1, h2⟩ := ih hrest (data ++ [JsonValue.object (modelJsonOfName n)])
      refine ⟨JsonValue.object (modelJsonOfName n) :: more, ?_, ?_⟩
      · simp [listModelsLoop, hi, modelToJson, hn, h1]
      · rw [List.filter_cons_of_pos (by simpa using hi), List.map_cons, List.map_cons, h2]
        simp [modelToJson, hn]

/-- The get-model loop on a registry whose installed entries follow the convention: the
JSON of the first installed entry of that name, or the object it started with. -/
theorem getModelLoop_of_convention (asserts : Bool) (model : QString)
    (modelList : List ModelInfo)
    (h : ∀ m ∈ modelList, m.installed = true → followsConvention m.filename)
    (object : QJsonObject) :
    getModelLoop asserts model modelList object =
      match modelList.find? (fun m => m.installed && decide (modelToName asserts m = some model)) with
      | some m => modelToJson asserts m
      | none => some object := by
  induction modelList with
  | nil => simp [getModelLoop]
  | cons info rest ih =>
    have hrest : ∀ m ∈ rest, m.installed = true → followsConvention m.filename :=
      fun m hm => h m (List.mem_cons_of_mem _ hm)
    cases hi : info.installed with
    | false => simp [getModelLoop, hi, List.find?, ih hrest]
    | true =>
      obtain ⟨n, hn, _⟩ := modelToName_of_convention asserts info
        (h info (List.mem_cons_self _ _) hi)
      by_cases hm : model = n
      · subst hm
        simp [getModelLoop, hi, hn, List.find?]
      · have hm2 : ¬ n = model := fun e => hm e.symm
        simp [getModelLoop, hi, hn, List.find?, hm, hm2, ih hrest]

/-- An installed entry of name `n` has its JSON among the entries the list loop added. -/
theorem mem_data_of_installed (asserts : Bool) (modelList : List ModelInfo)
    (data : List JsonValue)
    (h2 : (modelList.filter (fun m => m.installed)).map
        (fun m => (modelToJson asserts m).map JsonValue.object) = data.map some)
    (m : ModelInfo) (hm : m ∈ modelList) (hi : m.installed = true) (n : QString)
    (hn : modelToName asserts m = some n) :
    JsonValue.object (modelJsonOfName n) ∈ data := by
  have hmem : (modelToJson asserts m).map JsonValue.object ∈
      (modelList.filter (fun m => m.installed)).map
        (fun m => (modelToJson asserts m).map JsonValue.object) :=
    List.mem_map_of_mem _ (List.mem_filter.2 ⟨hm, by simpa using hi⟩)
  rw [h2] at hmem
  simpa [modelToJson, hn] using hmem

theorem handleGetModel_found (asserts : Bool) (modelList : List ModelInfo) (id : QString)
    (h : ∀ m ∈ modelList, m.installed = true → followsConvention m.filename)
    (m : ModelInfo) (hm : m ∈ modelList) (hi : m.installed = true)
    (hn : modelToName asserts m = some id) :
    handleGetModel asserts modelList id = .response (.ofJson (modelJsonOfName id)) := by
  have hg := getModelLoop_of_convention asserts id modelList h []
  cases hfind : modelList.find? (fun m => m.installed && decide (modelToName asserts m = some id)) with
  | none =>
    have := List.find?_eq_none.1 hfind m hm
    simp [hi, hn] at this
  | some m2 =>
    have hp := List.find?_some hfind
    simp only [Bool.and_eq_true, decide_eq_true_eq] at hp
    rw [hfind] at hg
    simp only [modelToJson, hp.2, Option.map_some'] at hg
    simp [handleGetModel, hg]

/-- C7. On a registry whose installed entries follow the naming convention: list-models
answers with one entry per installed model, in registry order; get-model answers with
`modelToJson` of the first installed entry whose derived id is the requested one, or with
the empty object (status 200) when there is none; a found object has `id` and `root` equal
to the requested id and is an element of the list-models data; and for every installed
model `m`, get-model of `modelToName m` has the `id` of the entry of `m` in that data. -/
theorem getModel_agrees_with_listModels (asserts : Bool) (modelList : List ModelInfo)
    (id : QString)
    (h : ∀ m ∈ modelList, m.installed = true → followsConvention m.filename) :
    ∃ data : List JsonValue,
      handleListModels asserts modelList =
        .response ⟨StatusCode.Ok, some [("object", .string "list".toList), ("data", .array data)]⟩ ∧
      (modelList.filter (fun m => m.installed)).map
        (fun m => (modelToJson asserts m).map JsonValue.object) = data.map some ∧
      (match modelList.find? (fun m => m.installed && decide (modelToName asserts m = some id)) with
        | some m =>
          ∃ obj, modelToJson asserts m = some obj ∧
            handleGetModel asserts modelList id = .response ⟨StatusCode.Ok, some obj⟩ ∧
            value obj "id" = .string id ∧ value obj "root" = .string id ∧
            JsonValue.object obj ∈ data
        | none => handleGetModel asserts modelList id = .response ⟨StatusCode.Ok, some []⟩) ∧
      (∀ m ∈ modelList, m.installed = true →
        ∃ n obj entry, modelToName asserts m = some n ∧
          handleGetModel asserts modelList n = .response ⟨StatusCode.Ok, some obj⟩ ∧
          modelToJson asserts m = some entry ∧ JsonValue.object entry ∈ data ∧
          value obj "id" = value entry "id") := by
  obtain ⟨data, h1, h2⟩ := listModelsLoop_of_convention asserts modelList h []
  refine ⟨data, ?_, h2, ?_, ?_⟩
  · simp only [handleListModels, h1, List.nil_append]
    rfl
  · cases hfind : modelList.find?
        (fun m => m.installed && decide (modelToName asserts m = some id)) with
    | none =>
      have hg := getModelLoop_of_convention asserts id modelList h []
      rw [hfind] at hg
      simp only [handleGetModel, hg]
      rfl
    | some m =>
      have hp := List.find?_some hfind
      simp only [Bool.and_eq_true, decide_eq_true_eq] at hp
      have hm := List.mem_of_find?_eq_some hfind
      refine ⟨modelJsonOfName id, by simp [modelToJson, hp.2], ?_, rfl, rfl, ?_⟩
      · exact handleGetModel_found asserts modelList id h m hm hp.1 hp.2
      · exact mem_data_of_installed asserts modelList data h2 m hm hp.1 id hp.2
  · intro m hm hi
    obtain ⟨n, hn, _⟩ := modelToName_of_convention asserts m (h m hm hi)
    refine ⟨n, modelJsonOfName n, modelJsonOfName n, hn, ?_, by simp [modelToJson, hn], ?_, rfl⟩
    · exact handleGetModel_found asserts modelList n h m hm hi hn
    · exact mem_data_of_installed asserts modelList data h2 m hm hi n hn

/-- C7 at the sample registry and the id `x`. -/
theorem getModel_agrees_with_listModels_witness :
    (∀ m ∈ sampleModelList, m.installed = true → followsConvention m.filename) ∧
    ∃ data : List JsonValue,
      handleListModels true sampleModelList =
        .response ⟨StatusCode.Ok, some [("object", .string "list".toList), ("data", .array data)]⟩ ∧
      (sampleModelList.filter (fun m => m.installed)).map
        (fun m => (modelToJson true m).map JsonValue.object) = data.map some ∧
      (match sampleModelList.find? (fun m => m.installed && decide (modelToName true m = some ['x'])) with
        | some m =>
          ∃ obj, modelToJson true m = some obj ∧
            handleGetModel true sampleModelList ['x'] = .response ⟨StatusCode.Ok, some obj⟩ ∧
            value obj "id" = .string ['x'] ∧ value obj "root" = .string ['x'] ∧
            JsonValue.object obj ∈ data
        | none => handleGetModel true sampleModelList ['x'] = .response ⟨StatusCode.Ok, some []⟩) ∧
      (∀ m ∈ sampleModelList, m.installed = true →
        ∃ n obj entry, modelToName true m = some n ∧
          handleGetModel true sampleModelList n = .response ⟨StatusCode.Ok, some obj⟩ ∧
          modelToJson true m = some entry ∧ JsonValue.object entry ∈ data ∧
          value obj "id" = value entry "id") :=
  ⟨by decide, getModel_agrees_with_listModels true sampleModelList ['x'] (by decide)⟩

/-! ## The completion handler: rejected requests -/

/-- C1. A request body that is not valid JSON, or whose top-level value is not an object,
or that is an object without a `"model"` member, leaves the engine untouched (no call, the
state unchanged); the status it is answered with is `NoContent` (204), which is a success
status and not a client error. -/
theorem rejected_request_NoContent {σ : Type} (E : Engine σ) (asserts : Bool)
    (modelList : List ModelInfo) (now : Int) (document : Option JsonValue) (s : σ)
    (h : ∀ body, document = some (.object body) → contains body "model" = false) :
    (handleCompletionRequest E asserts modelList now document s).outcome =
        .response ⟨StatusCode.NoContent, none⟩ ∧
      isSuccess StatusCode.NoContent ∧ ¬ isClientError StatusCode.NoContent ∧
      (handleCompletionRequest E asserts modelList now document s).trace = [] ∧
      (handleCompletionRequest E asserts modelList now document s).state = s := by
  refine ⟨?_, by decide, by decide, ?_, ?_⟩ <;>
  · unfold handleCompletionRequest
    split
    · rename_i body
      simp [h body rfl, QHttpServerResponse.ofStatus]
    · simp [QHttpServerResponse.ofStatus]

/-- C1 at a body that is not valid JSON. -/
theorem rejected_request_NoContent_witness :
    (handleCompletionRequest sampleEngine true sampleModelList 0 none ()).outcome =
        .response ⟨StatusCode.NoContent, none⟩ ∧
      isSuccess StatusCode.NoContent ∧ ¬ isClientError StatusCode.NoContent ∧
      (handleCompletionRequest sampleEngine true sampleModelList 0 none ()).trace = [] ∧
      (handleCompletionRequest sampleEngine true sampleModelList 0 none ()).state = () :=
  rejected_request_NoContent sampleEngine true sampleModelList 0 none ()
    (fun _ hb => by cases hb)

/-- In a build without assertions, or on a name that follows the convention,
`modelToName` returns a name. -/
theorem modelToName_isSome (asserts : Bool) (info : ModelInfo)
    (h : asserts = false ∨ followsConvention info.filename) :
    ∃ n, modelToName asserts info = some n := by
  rcases h with h | h
  · subst h
    exact ⟨_, modelToName_release info⟩
  · obtain ⟨n, hn, _⟩ := modelToName_of_convention asserts info h
    exact ⟨n, hn⟩

/-- The lookup loop finds nothing when no installed entry has the requested name. -/
theorem findModelLoop_none (asserts : Bool) (model : QString) (modelList : List ModelInfo)
    (hbuild : asserts = false ∨
      ∀ m ∈ modelList, m.installed = true → followsConvention m.filename)
    (hno : ∀ m ∈ modelList, m.installed = true → modelToName asserts m ≠ some model) :
    findModelLoop asserts model modelList = some false := by
  induction modelList with
  | nil => rfl
  | cons info rest ih =>
    have hbuild2 : asserts = false ∨
        ∀ m ∈ rest, m.installed = true → followsConvention m.filename :=
      hbuild.imp id (fun hc m hm => hc m (List.mem_cons_of_mem _ hm))
    have hno2 : ∀ m ∈ rest, m.installed = true → modelToName asserts m ≠ some model :=
      fun m hm => hno m (List.mem_cons_of_mem _ hm)
    cases hi : info.installed with
    | false => simp [findModelLoop, hi, ih hbuild2 hno2]
    | true =>
      obtain ⟨n, hn⟩ := modelToName_isSome asserts info
        (hbuild.imp id (fun hc => hc info (List.mem_cons_self _ _) hi))
      have hne : ¬ model = n := by
        intro e
        exact hno info (List.mem_cons_self _ _) hi (by rw [hn, e])
      simp [findModelLoop, hi, hn, hne, ih hbuild2 hno2]

/-- C2, as stated, fails in a build that keeps assertions: with an installed file
`model.bin` in the registry, the request `{"model": "gpt"}` names no installed entry, and
the handler stops on the failed assertion of `modelToName` instead of answering 400. -/
theorem unknown_model_assertion_counterexample :
    contains [("model", .string "gpt".toList)] "model" = true ∧
    (∀ m ∈ [(⟨"model.bin".toList, true⟩ : ModelInfo)], m.installed = true →
      modelToName true m ≠ some (value [("model", .string "gpt".toList)] "model").toQString) ∧
    (handleCompletionRequest sampleEngine true [⟨"model.bin".toList, true⟩] 0
      (some (.object [("model", .string "gpt".toList)])) ()).outcome = .aborted .assertion ∧
    (handleCompletionRequest sampleEngine true [⟨"model.bin".toList, true⟩] 0
      (some (.object [("model", .string "gpt".toList)])) ()).outcome ≠
        .response ⟨StatusCode.BadRequest, none⟩ := by
  refine ⟨rfl, by decide, rfl, ?_⟩
  intro h
  exact Outcome.noConfusion h

/-- C2, amended. In a build without assertions, or on a registry whose installed entries
follow the naming convention: a JSON object body with a `"model"` member whose string value
is the derived id of no installed entry is answered with 400 Bad Request and no body, with
no call into the engine and the engine state unchanged.  Entries that are not installed
do not count, whatever their name. -/
theorem unknown_model_BadRequest {σ : Type} (E : Engine σ) (asserts : Bool)
    (modelList : List ModelInfo) (now : Int) (body : QJsonObject) (s : σ)
    (hbuild : asserts = false ∨
      ∀ m ∈ modelList, m.installed = true → followsConvention m.filename)
    (hmodel : contains body "model" = true)
    (hno : ∀ m ∈ modelList, m.installed = true →
      modelToName asserts m ≠ some (value body "model").toQString) :
    (handleCompletionRequest E asserts modelList now (some (.object body)) s).outcome =
        .response ⟨StatusCode.BadRequest, none⟩ ∧
      isClientError StatusCode.BadRequest ∧
      (handleCompletionRequest E asserts modelList now (some (.object body)) s).trace = [] ∧
      (handleCompletionRequest E asserts modelList now (some (.object body)) s).state = s := by
  have hf := findModelLoop_none asserts _ modelList hbuild hno
  refine ⟨?_, by decide, ?_, ?_⟩ <;>
  simp [handleCompletionRequest, hmodel, hf, QHttpServerResponse.ofStatus]

/-- C2 (amended) at the sample registry and the request `{"model": "y"}`: `ggml-y.bin` is
in the registry but not installed. -/
theorem unknown_model_BadRequest_witness :
    (handleCompletionRequest sampleEngine true sampleModelList 0
        (some (.object [("model", .string ['y'])])) ()).outcome =
        .response ⟨StatusCode.BadRequest, none⟩ ∧
      isClientError StatusCode.BadRequest ∧
      (handleCompletionRequest sampleEngine true sampleModelList 0
        (some (.object [("model", .string ['y'])])) ()).trace = [] ∧
      (handleCompletionRequest sampleEngine true sampleModelList 0
        (some (.object [("model", .string ['y'])])) ()).state = () :=
  unknown_model_BadRequest sampleEngine true sampleModelList 0 [("model", .string ['y'])] ()
    (Or.inr (by decide)) rfl (by decide)

/-! ## The completion handler: the order of the engine calls -/

/-- The calls of an accepted request whose prompt list has a first element. -/
theorem trace_of_accepted {σ : Type} (E : Engine σ) (asserts : Bool)
    (modelList : List ModelInfo) (now : Int) (body : QJsonObject) (s : σ)
    (h : accepted E asserts modelList body s) (first : QString)
    (hfirst : (readPrompts body).head? = some first) :
    (handleCompletionRequest E asserts modelList now (some (.object body)) s).trace =
      fullTrace (value body "model").toQString first
        (promptArgs E (readLocals body) first (stateAtPrompt E body first s)) := by
  obtain ⟨hmodel, hfound, hload⟩ := h
  have hp : (readLocals body).prompts.head? = some first := hfirst
  simp only [handleCompletionRequest, hmodel, hfound, hload, hp, Bool.not_true,
    Bool.false_eq_true, if_false]
  split <;> rfl

/-- The run of an accepted request whose prompt list is empty. -/
theorem run_of_accepted_empty {σ : Type} (E : Engine σ) (asserts : Bool)
    (modelList : List ModelInfo) (now : Int) (body : QJsonObject) (s : σ)
    (h : accepted E asserts modelList body s)
    (hfirst : (readPrompts body).head? = none) :
    (handleCompletionRequest E asserts modelList now (some (.object body)) s).outcome =
        .aborted .firstOfEmpty ∧
    (handleCompletionRequest E asserts modelList now (some (.object body)) s).trace =
      [.loadModel (value body "model").toQString, .resetContextProtected] := by
  obtain ⟨hmodel, hfound, hload⟩ := h
  have hp : (readLocals body).prompts.head? = none := hfirst
  simp [handleCompletionRequest, hmodel, hfound, hload, hp]

/-- The four shapes the calls of a request can take. -/
theorem trace_cases {σ : Type} (E : Engine σ) (asserts : Bool)
    (modelList : List ModelInfo) (now : Int) (document : Option JsonValue) (s : σ) :
    (handleCompletionRequest E asserts modelList now document s).trace = [] ∨
    ∃ body, document = some (.object body) ∧
      ((handleCompletionRequest E asserts modelList now document s).trace =
          [.loadModel (value body "model").toQString] ∨
       (handleCompletionRequest E asserts modelList now document s).trace =
          [.loadModel (value body "model").toQString, .resetContextProtected] ∨
       ∃ first, (readPrompts body).head? = some first ∧
          (E.loadModel (value body "model").toQString s).1 = true ∧
          (handleCompletionRequest E asserts modelList now document s).trace =
            fullTrace (value body "model").toQString first
              (promptArgs E (readLocals body) first (stateAtPrompt E body first s))) := by
  cases document with
  | none => exact Or.inl rfl
  | some v =>
    cases v with
    | object body =>
      by_cases hm : contains body "model" = true
      · cases hf : findModelLoop asserts (value body "model").toQString modelList with
        | none => exact Or.inl (by simp [handleCompletionRequest, hm, hf])
        | some found =>
          cases found with
          | false => exact Or.inl (by simp [handleCompletionRequest, hm, hf])
          | true =>
            by_cases hl : (E.loadModel (value body "model").toQString s).1 = true
            · have hacc : accepted E asserts modelList body s := ⟨hm, hf, hl⟩
              cases hp : (readPrompts body).head? with
              | none =>
                exact Or.inr ⟨body, rfl, Or.inr (Or.inl
                  (run_of_accepted_empty E asserts modelList now body s hacc hp).2)⟩
              | some first =>
                exact Or.inr ⟨body, rfl, Or.inr (Or.inr ⟨first, hp, hl,
                  trace_of_accepted E asserts modelList now body s hacc first hp⟩)⟩
            · exact Or.inr ⟨body, rfl, Or.inl (by simp [handleCompletionRequest, hm, hf, hl])⟩
      · exact Or.inl (by simp [handleCompletionRequest, hm])
    | null => exact Or.inl rfl
    | bool b => exact Or.inl rfl
    | double d => exact Or.inl rfl
    | string t => exact Or.inl rfl
    | array a => exact Or.inl rfl
    | undefined => exact Or.inl rfl

/-- C3. The calls of any request into the engine are an initial part of
`[loadModel, resetContextProtected, transcript notification, prompt]`; a trace with a
`prompt` call is the whole of that list, its load succeeded, and the string notified and
prompted is the first element of the prompt list. -/
theorem reset_precedes_generation {σ : Type} (E : Engine σ) (asserts : Bool)
    (modelList : List ModelInfo) (now : Int) (document : Option JsonValue) (s : σ) :
    ∃ model first args,
      (handleCompletionRequest E asserts modelList now document s).trace <+:
        [.loadModel model, .resetContextProtected,
          .requestServerNewPromptResponsePair first, .prompt args] ∧
      ((∃ a, Effect.prompt a ∈
          (handleCompletionRequest E asserts modelList now document s).trace) →
        (handleCompletionRequest E asserts modelList now document s).trace =
          [.loadModel model, .resetContextProtected,
            .requestServerNewPromptResponsePair first, .prompt args] ∧
        (E.loadModel model s).1 = true ∧ args.prompt = first ∧
        ∃ body, document = some (.object body) ∧ (readPrompts body).head? = some first) := by
  have hdummy : PromptArgs := promptArgs E (readLocals []) [] s
  rcases trace_cases E asserts modelList now document s with h | ⟨body, hb, h | h | h⟩
  · refine ⟨[], [], hdummy, ?_, ?_⟩
    · rw [h]; exact List.nil_prefix
    · rw [h]; rintro ⟨a, ha⟩; simp at ha
  · refine ⟨(value body "model").toQString, [], hdummy, ?_, ?_⟩
    · rw [h]; exact ⟨_, rfl⟩
    · rw [h]; rintro ⟨a, ha⟩; simp at ha
  · refine ⟨(value body "model").toQString, [], hdummy, ?_, ?_⟩
    · rw [h]; exact ⟨_, rfl⟩
    · rw [h]; rintro ⟨a, ha⟩; simp at ha
  · obtain ⟨first, hfirst, hl, ht⟩ := h
    refine ⟨(value body "model").toQString, first,
      promptArgs E (readLocals body) first (stateAtPrompt E body first s), ?_, ?_⟩
    · rw [ht]; exact List.prefix_refl _
    · intro _
      exact ⟨ht, hl, rfl, body, hb, hfirst⟩

/-! ## The completion handler: the arguments of the generation call -/

/-- The `prompt` call of an accepted request, when there is one: its arguments. -/
theorem prompt_mem_trace {σ : Type} (E : Engine σ) (asserts : Bool)
    (modelList : List ModelInfo) (now : Int) (body : QJsonObject) (s : σ)
    (h : accepted E asserts modelList body s) (a : PromptArgs)
    (ha : Effect.prompt a ∈
      (handleCompletionRequest E asserts modelList now (some (.object body)) s).trace) :
    ∃ first, (readPrompts body).head? = some first ∧
      a = promptArgs E (readLocals body) first (stateAtPrompt E body first s) := by
  cases hp : (readPrompts body).head? with
  | none =>
    rw [(run_of_accepted_empty E asserts modelList now body s h hp).2] at ha
    simp at ha
  | some first =>
    rw [trace_of_accepted E asserts modelList now body s h first hp] at ha
    simp [fullTrace] at ha
    exact ⟨first, rfl, ha⟩

/-- An accepted request whose prompt list is not empty reaches the `prompt` call. -/
theorem prompt_reached {σ : Type} (E : Engine σ) (asserts : Bool)
    (modelList : List ModelInfo) (now : Int) (body : QJsonObject) (s : σ)
    (h : accepted E asserts modelList body s) (hp : (readPrompts body).head? ≠ none) :
    ∃ a, Effect.prompt a ∈
      (handleCompletionRequest E asserts modelList now (some (.object body)) s).trace := by
  cases hf : (readPrompts body).head? with
  | none => exact absurd hf hp
  | some first =>
    rw [trace_of_accepted E asserts modelList now body s h first hf]
    exact ⟨promptArgs E (readLocals body) first (stateAtPrompt E body first s),
      by simp [fullTrace]⟩

theorem toInt_ofInt (k : Int) (hk : inIntRange k) :
    (JsonValue.double (Decimal.ofInt k)).toInt = k := by
  simp [JsonValue.toInt, Decimal.ofInt, Decimal.isWhole, Decimal.toWhole, hk]

/-- C4, as stated, fails on the code: the accepted request
`{"model": "x", "top_p": 0.5, "presence_penalty": 0}` reaches the `prompt` call with
`top_p = 0`, the value of its `"presence_penalty"` member, and not with the `0.5` of its
`"top_p"` member (line 220 assigns `top_p`). -/
theorem top_p_overwritten_by_presence_penalty :
    accepted sampleEngine true sampleModelList
      [("model", .string ['x']), ("top_p", .double ⟨5, 1⟩),
        ("presence_penalty", .double ⟨0, 0⟩)] () ∧
    (value [("model", .string ['x']), ("top_p", .double ⟨5, 1⟩),
        ("presence_penalty", .double ⟨0, 0⟩)] "top_p").toDouble = ⟨5, 1⟩ ∧
    ∃ a, (handleCompletionRequest sampleEngine true sampleModelList 0
        (some (.object [("model", .string ['x']), ("top_p", .double ⟨5, 1⟩),
          ("presence_penalty", .double ⟨0, 0⟩)])) ()).trace =
        [.loadModel ['x'], .resetContextProtected,
          .requestServerNewPromptResponsePair endOfText, .prompt a] ∧
      a.top_p = ⟨0, 0⟩ ∧ a.top_p ≠ ⟨5, 1⟩ ∧ a.temp = ⟨1, 0⟩ ∧
      a.promptTemplate = ['%', '1'] :=
  ⟨⟨rfl, rfl, rfl⟩, rfl, _, rfl, rfl, by decide, rfl, rfl⟩

/-- C5, as stated, fails for an integer that is no `int`: the accepted request
`{"model": "x", "max_tokens": 2147483648}` reaches the `prompt` call with `n_predict = 0`. -/
theorem max_tokens_out_of_range_counterexample :
    accepted sampleEngine true sampleModelList
      [("model", .string ['x']), ("max_tokens", .double (Decimal.ofInt 2147483648))] () ∧
    ∃ a, (handleCompletionRequest sampleEngine true sampleModelList 0
        (some (.object [("model", .string ['x']),
          ("max_tokens", .double (Decimal.ofInt 2147483648))])) ()).trace =
        [.loadModel ['x'], .resetContextProtected,
          .requestServerNewPromptResponsePair endOfText, .prompt a] ∧
      a.n_predict = 0 ∧ a.n_predict ≠ 2147483648 :=
  ⟨⟨rfl, rfl, rfl⟩, _, rfl, rfl, by decide⟩

/-- C5, amended. For every accepted completion request, the `n_predict` argument of the
generation call is 16 when the request has no `"max_tokens"` member and otherwise the `int`
value of that member (`toInt`), whatever the other members are; for every integer `k`
representable as a 32-bit `int`, zero and negative ones included, a request with
`"max_tokens": k` reaches generation with `n_predict = k`.  The call is reached whenever
the prompt list has a first element. -/
theorem n_predict_is_max_tokens {σ : Type} (E : Engine σ) (asserts : Bool)
    (modelList : List ModelInfo) (now : Int) (body : QJsonObject) (s : σ)
    (h : accepted E asserts modelList body s) :
    (∀ a, Effect.prompt a ∈
        (handleCompletionRequest E asserts modelList now (some (.object body)) s).trace →
      a.n_predict =
        (if contains body "max_tokens" then (value body "max_tokens").toInt else 16) ∧
      (body.lookup "max_tokens" = none → a.n_predict = 16) ∧
      (∀ k : Int, inIntRange k → body.lookup "max_tokens" = some (.double (Decimal.ofInt k)) →
        a.n_predict = k)) ∧
    ((readPrompts body).head? ≠ none → ∃ a, Effect.prompt a ∈
        (handleCompletionRequest E asserts modelList now (some (.object body)) s).trace) := by
  refine ⟨?_, prompt_reached E asserts modelList now body s h⟩
  intro a ha
  obtain ⟨first, _, rfl⟩ := prompt_mem_trace E asserts modelList now body s h a ha
  have hn : (promptArgs E (readLocals body) first (stateAtPrompt E body first s)).n_predict =
      (if contains body "max_tokens" then (value body "max_tokens").toInt else 16) := rfl
  refine ⟨hn, ?_, ?_⟩
  · intro hnone
    rw [hn]
    simp [contains, hnone]
  · intro k hk hsome
    rw [hn]
    simp only [contains, value, hsome, Option.isSome_some, if_true, Option.getD_some]
    exact toInt_ofInt k hk

/-- C5 (amended) at the request `{"model": "x", "max_tokens": -3}`. -/
theorem n_predict_is_max_tokens_witness :
    (∀ a, Effect.prompt a ∈
        (handleCompletionRequest sampleEngine true sampleModelList 0
          (some (.object [("model", .string ['x']),
            ("max_tokens", .double (Decimal.ofInt (-3)))])) ()).trace →
      a.n_predict =
        (if contains [("model", .string ['x']), ("max_tokens", .double (Decimal.ofInt (-3)))]
            "max_tokens"
          then (value [("model", .string ['x']), ("max_tokens", .double (Decimal.ofInt (-3)))]
            "max_tokens").toInt
          else 16) ∧
      (List.lookup "max_tokens"
          [("model", JsonValue.string ['x']), ("max_tokens", .double (Decimal.ofInt (-3)))] = none →
        a.n_predict = 16) ∧
      (∀ k : Int, inIntRange k →
        List.lookup "max_tokens"
          [("model", JsonValue.string ['x']), ("max_tokens", .double (Decimal.ofInt (-3)))] =
          some (.double (Decimal.ofInt k)) →
        a.n_predict = k)) ∧
    ((readPrompts [("model", .string ['x']), ("max_tokens", .double (Decimal.ofInt (-3)))]).head?
        ≠ none →
      ∃ a, Effect.prompt a ∈
        (handleCompletionRequest sampleEngine true sampleModelList 0
          (some (.object [("model", .string ['x']),
            ("max_tokens", .double (Decimal.ofInt (-3)))])) ()).trace) :=
  n_predict_is_max_tokens sampleEngine true sampleModelList 0
    [("model", .string ['x']), ("max_tokens", .double (Decimal.ofInt (-3)))] ()
    ⟨rfl, rfl, rfl⟩

/-- C10, as stated, fails on the code: for the accepted requests
`{"model": "x", "prompt": []}` and `{"model": "x", "prompt": 5}` the prompt list is empty
where `prompts.first()` is taken (line 240), after the load and the reset. -/
theorem first_of_empty_prompts :
    accepted sampleEngine true sampleModelList
      [("model", .string ['x']), ("prompt", .array [])] () ∧
    readPrompts [("model", .string ['x']), ("prompt", .array [])] = [] ∧
    (handleCompletionRequest sampleEngine true sampleModelList 0
      (some (.object [("model", .string ['x']), ("prompt", .array [])])) ()).outcome =
        .aborted .firstOfEmpty ∧
    (handleCompletionRequest sampleEngine true sampleModelList 0
      (some (.object [("model", .string ['x']), ("prompt", .array [])])) ()).trace =
        [.loadModel ['x'], .resetContextProtected] ∧
    readPrompts [("model", .string ['x']), ("prompt", .double (Decimal.ofInt 5))] = [] ∧
    (handleCompletionRequest sampleEngine true sampleModelList 0
      (some (.object [("model", .string ['x']),
        ("prompt", .double (Decimal.ofInt 5))])) ()).outcome = .aborted .firstOfEmpty :=
  ⟨⟨rfl, rfl, rfl⟩, rfl, rfl, rfl, rfl, rfl⟩

/-! ## The completion handler: the usage block -/

/-- A response with a body is the response object built after a successful generation. -/
theorem body_of_response {σ : Type} (E : Engine σ) (asserts : Bool)
    (modelList : List ModelInfo) (now : Int) (document : Option JsonValue) (s : σ)
    (c : Nat) (obj : QJsonObject)
    (h : (handleCompletionRequest E asserts modelList now document s).outcome =
      .response ⟨c, some obj⟩) :
    ∃ model, obj = responseObject E now model
      (handleCompletionRequest E asserts modelList now document s).state := by
  cases document with
  | none => simp [handleCompletionRequest, QHttpServerResponse.ofStatus] at h
  | some v =>
    cases v with
    | object body =>
      by_cases hm : contains body "model" = true
      · cases hf : findModelLoop asserts (value body "model").toQString modelList with
        | none => simp [handleCompletionRequest, hm, hf] at h
        | some found =>
          cases found with
          | false => simp [handleCompletionRequest, hm, hf, QHttpServerResponse.ofStatus] at h
          | true =>
            by_cases hl : (E.loadModel (value body "model").toQString s).1 = true
            · cases hp : (readLocals body).prompts.head? with
              | none => simp [handleCompletionRequest, hm, hf, hl, hp] at h
              | some first =>
                by_cases hg : (E.prompt (promptArgs E (readLocals body) first
                    (E.requestServerNewPromptResponsePair first (E.resetContextProtected
                      (E.loadModel (value body "model").toQString s).2)))
                    (E.requestServerNewPromptResponsePair first (E.resetContextProtected
                      (E.loadModel (value body "model").toQString s).2))).1 = true
                · simp only [handleCompletionRequest, hm, hf, hl, hp, hg, Bool.not_true,
                    Bool.false_eq_true, if_false, QHttpServerResponse.ofJson,
                    Outcome.response.injEq, QHttpServerResponse.mk.injEq, Option.some.injEq] at h
                  refine ⟨(value body "model").toQString, ?_⟩
                  simp only [handleCompletionRequest, hm, hf, hl, hp, hg, Bool.not_true,
                    Bool.false_eq_true, if_false]
                  exact h.2.symm
                · simp [handleCompletionRequest, hm, hf, hl, hp, hg,
                    QHttpServerResponse.ofStatus] at h
            · simp [handleCompletionRequest, hm, hf, hl, QHttpServerResponse.ofStatus] at h
      · simp [handleCompletionRequest, hm, QHttpServerResponse.ofStatus] at h
    | null => simp [handleCompletionRequest, QHttpServerResponse.ofStatus] at h
    | bool b => simp [handleCompletionRequest, QHttpServerResponse.ofStatus] at h
    | double d => simp [handleCompletionRequest, QHttpServerResponse.ofStatus] at h
    | string t => simp [handleCompletionRequest, QHttpServerResponse.ofStatus] at h
    | array a => simp [handleCompletionRequest, QHttpServerResponse.ofStatus] at h
    | undefined => simp [handleCompletionRequest, QHttpServerResponse.ofStatus] at h

theorem toInt32_of_lt (n : Nat) (h : n < 2 ^ 31) : toInt32 n = n := by
  have h1 : n % 2 ^ 32 = n := Nat.mod_eq_of_lt (by omega)
  unfold toInt32
  rw [h1, if_pos h]

/-- The `int` of the `quint32` difference of two counters below `2 ^ 31`. -/
theorem toInt32_subU32 (t p : Nat) (ht : t < 2 ^ 31) (hp : p < 2 ^ 31) :
    toInt32 (subU32 t p) = (t : Int) - p := by
  have h1 : t % 2 ^ 32 = t := Nat.mod_eq_of_lt (by omega)
  have h2 : p % 2 ^ 32 = p := Nat.mod_eq_of_lt (by omega)
  unfold toInt32 subU32
  rw [h1, h2, Nat.mod_mod]
  by_cases hle : p ≤ t
  · have h3 : (t + 2 ^ 32 - p) % 2 ^ 32 = t - p := by omega
    rw [h3, if_pos (by omega)]
    omega
  · have h3 : (t + 2 ^ 32 - p) % 2 ^ 32 = t + 2 ^ 32 - p := by omega
    rw [h3, if_neg (by omega)]
    omega

/-- C8, as stated, fails for counters an `int` cannot hold or that are out of order: with
the counters (prompt, total) at `(1610612736, 3221225472)` the usage block has
`total_tokens = -1073741824`, which is not `prompt_tokens + completion_tokens`; at
`(0, 2147483648)` and at `(1, 0)` it has a negative `completion_tokens`. -/
theorem usage_counterexample :
    (∃ obj usage,
      (handleCompletionRequest (counterEngine 1610612736 3221225472) true sampleModelList 0
        (some (.object [("model", .string ['x'])])) ()).outcome =
        .response ⟨StatusCode.Ok, some obj⟩ ∧
      value obj "usage" = .object usage ∧
      value usage "prompt_tokens" = .double (Decimal.ofInt 1610612736) ∧
      value usage "completion_tokens" = .double (Decimal.ofInt 1610612736) ∧
      value usage "total_tokens" = .double (Decimal.ofInt (-1073741824)) ∧
      (-1073741824 : Int) ≠ 1610612736 + 1610612736) ∧
    (∃ obj usage,
      (handleCompletionRequest (counterEngine 0 2147483648) true sampleModelList 0
        (some (.object [("model", .string ['x'])])) ()).outcome =
        .response ⟨StatusCode.Ok, some obj⟩ ∧
      value obj "usage" = .object usage ∧
      value usage "completion_tokens" = .double (Decimal.ofInt (-2147483648)) ∧
      ¬ (0 : Int) ≤ -2147483648) ∧
    (∃ obj usage,
      (handleCompletionRequest (counterEngine 1 0) true sampleModelList 0
        (some (.object [("model", .string ['x'])])) ()).outcome =
        .response ⟨StatusCode.Ok, some obj⟩ ∧
      value obj "usage" = .object usage ∧
      value usage "completion_tokens" = .double (Decimal.ofInt (-1)) ∧
      ¬ (0 : Int) ≤ -1) :=
  ⟨⟨_, _, rfl, rfl, rfl, rfl, rfl, by decide⟩, ⟨_, _, rfl, rfl, rfl, by decide⟩,
    ⟨_, _, rfl, rfl, rfl, by decide⟩⟩

/-- C8, amended. For every successful completion response whose two token counters are
below `2 ^ 31`, the usage block holds the prompt count, the total count and their
difference: `total_tokens = prompt_tokens + completion_tokens` and
`completion_tokens = total_tokens - prompt_tokens` as integers; and
`completion_tokens ≥ 0` when the prompt count is at most the total count. -/
theorem usage_total_is_sum {σ : Type} (E : Engine σ) (asserts : Bool)
    (modelList : List ModelInfo) (now : Int) (document : Option JsonValue) (s : σ)
    (obj : QJsonObject)
    (hrun : (handleCompletionRequest E asserts modelList now document s).outcome =
      .response ⟨StatusCode.Ok, some obj⟩)
    (hp : E.promptTokens (handleCompletionRequest E asserts modelList now document s).state
      < 2 ^ 31)
    (ht : E.promptResponseTokens
      (handleCompletionRequest E asserts modelList now document s).state < 2 ^ 31) :
    ∃ (usage : QJsonObject) (pt ct tt : Int),
      value obj "usage" = .object usage ∧
      value usage "prompt_tokens" = .double (Decimal.ofInt pt) ∧
      value usage "completion_tokens" = .double (Decimal.ofInt ct) ∧
      value usage "total_tokens" = .double (Decimal.ofInt tt) ∧
      pt = E.promptTokens (handleCompletionRequest E asserts modelList now document s).state ∧
      tt = E.promptResponseTokens
        (handleCompletionRequest E asserts modelList now document s).state ∧
      tt = pt + ct ∧ ct = tt - pt ∧
      (E.promptTokens (handleCompletionRequest E asserts modelList now document s).state ≤
        E.promptResponseTokens (handleCompletionRequest E asserts modelList now document s).state →
        0 ≤ ct) := by
  obtain ⟨model, rfl⟩ := body_of_response E asserts modelList now document s _ obj hrun
  have h1 := toInt32_of_lt _ hp
  have h2 := toInt32_of_lt _ ht
  have h3 := toInt32_subU32 _ _ ht hp
  refine ⟨usageObject _ _, toInt32 _, toInt32 (subU32 _ _), toInt32 _, rfl, rfl, rfl, rfl,
    h1, h2, ?_, ?_, ?_⟩
  · rw [h1, h2, h3]; omega
  · rw [h1, h2, h3]
  · intro hle
    rw [h3]; omega

/-- C8 (amended) at the request `{"model": "x", "prompt": "hi"}` on the sample engine,
whose counters are 3 and 5. -/
theorem usage_total_is_sum_witness :
    ∃ (usage : QJsonObject) (pt ct tt : Int),
      value (responseObject sampleEngine 0 ['x'] ()) "usage" = .object usage ∧
      value usage "prompt_tokens" = .double (Decimal.ofInt pt) ∧
      value usage "completion_tokens" = .double (Decimal.ofInt ct) ∧
      value usage "total_tokens" = .double (Decimal.ofInt tt) ∧
      pt = sampleEngine.promptTokens (handleCompletionRequest sampleEngine true sampleModelList 0
        (some (.object [("model", .string ['x']), ("prompt", .string ['h', 'i'])])) ()).state ∧
      tt = sampleEngine.promptResponseTokens
        (handleCompletionRequest sampleEngine true sampleModelList 0
          (some (.object [("model", .string ['x']), ("prompt", .string ['h', 'i'])])) ()).state ∧
      tt = pt + ct ∧ ct = tt - pt ∧
      (sampleEngine.promptTokens (handleCompletionRequest sampleEngine true sampleModelList 0
          (some (.object [("model", .string ['x']), ("prompt", .string ['h', 'i'])])) ()).state ≤
        sampleEngine.promptResponseTokens
          (handleCompletionRequest sampleEngine true sampleModelList 0
            (some (.object [("model", .string ['x']), ("prompt", .string ['h', 'i'])])) ()).state →
        0 ≤ ct) :=
  usage_total_is_sum sampleEngine true sampleModelList 0
    (some (.object [("model", .string ['x']), ("prompt", .string ['h', 'i'])])) ()
    (responseObject sampleEngine 0 ['x'] ()) rfl (by decide) (by decide)

/-! ## The completion handler: only the first prompt is used -/

theorem lookup_cons_ite (k a : String) (b : JsonValue) (es : QJsonObject) :
    List.lookup k ((a, b) :: es) = if k = a then some b else List.lookup k es := by
  by_cases h : k = a
  · subst h
    simp [List.lookup]
  · have hb : (k == a) = false := by simpa using h
    simp [List.lookup, hb, h]

theorem lookup_insert (o : QJsonObject) (key : String) (v : JsonValue) (k : String) :
    List.lookup k (insert o key v) = if k = key then some v else List.lookup k o := by
  induction o with
  | nil => simp [insert, lookup_cons_ite]
  | cons kw rest ih =>
    obtain ⟨k0, w⟩ := kw
    by_cases h0 : k0 = key
    · subst h0
      simp only [insert, if_true, lookup_cons_ite]
      split <;> rfl
    · simp only [insert, h0, if_false, lookup_cons_ite, ih]
      by_cases hk : k = key
      · have hk0 : ¬ k = k0 := by rw [hk]; exact fun e => h0 e.symm
        simp [hk, hk0]
        intro e
        exact absurd e.symm h0
      · simp [hk]

theorem contains_insert_of_ne (o : QJsonObject) (key : String) (v : JsonValue) (k : String)
    (h : k ≠ key) : contains (insert o key v) k = contains o k := by
  simp [contains, lookup_insert, h]

theorem value_insert_of_ne (o : QJsonObject) (key : String) (v : JsonValue) (k : String)
    (h : k ≠ key) : value (insert o key v) k = value o k := by
  simp [value, lookup_insert, h]

theorem contains_insert_self (o : QJsonObject) (key : String) (v : JsonValue) :
    contains (insert o key v) key = true := by
  simp [contains, lookup_insert]

theorem value_insert_self (o : QJsonObject) (key : String) (v : JsonValue) :
    value (insert o key v) key = v := by
  simp [value, lookup_insert]

/-- The run depends on the body only through its `"model"` member, the first element of
the prompt list and the three values handed to the `prompt` call. -/
theorem handleCompletionRequest_congr {σ : Type} (E : Engine σ) (asserts : Bool)
    (modelList : List ModelInfo) (now : Int) (b1 b2 : QJsonObject) (s : σ)
    (hc : contains b1 "model" = contains b2 "model")
    (hv : value b1 "model" = value b2 "model")
    (hp : (readLocals b1).prompts.head? = (readLocals b2).prompts.head?)
    (hm : (readLocals b1).max_tokens = (readLocals b2).max_tokens)
    (ht : (readLocals b1).top_p = (readLocals b2).top_p)
    (hte : (readLocals b1).temperature = (readLocals b2).temperature) :
    handleCompletionRequest E asserts modelList now (some (.object b1)) s =
      handleCompletionRequest E asserts modelList now (some (.object b2)) s := by
  simp only [handleCompletionRequest, promptArgs, hc, hv, hp, hm, ht, hte]

/-- Setting the `"prompt"` member changes no variable other than `prompts`. -/
theorem readLocals_insert_prompt (fields : QJsonObject) (v w : JsonValue) :
    (readLocals (insert fields "prompt" v)).max_tokens =
      (readLocals (insert fields "prompt" w)).max_tokens ∧
    (readLocals (insert fields "prompt" v)).top_p =
      (readLocals (insert fields "prompt" w)).top_p ∧
    (readLocals (insert fields "prompt" v)).temperature =
      (readLocals (insert fields "prompt" w)).temperature := by
  have c : ∀ (u : JsonValue) (k : String), k ≠ "prompt" →
      contains (insert fields "prompt" u) k = contains fields k :=
    fun u k hk => contains_insert_of_ne fields "prompt" u k hk
  have e : ∀ (u : JsonValue) (k : String), k ≠ "prompt" →
      value (insert fields "prompt" u) k = value fields k :=
    fun u k hk => value_insert_of_ne fields "prompt" u k hk
  refine ⟨?_, ?_, ?_⟩
  · simp only [readLocals, c v "max_tokens" (by decide), c w "max_tokens" (by decide),
      e v "max_tokens" (by decide), e w "max_tokens" (by decide)]
  · simp only [readLocals, c v "top_p" (by decide), c w "top_p" (by decide),
      e v "top_p" (by decide), e w "top_p" (by decide),
      c v "presence_penalty" (by decide), c w "presence_penalty" (by decide),
      e v "presence_penalty" (by decide), e w "presence_penalty" (by decide),
      c v "frequency_penalty" (by decide), c w "frequency_penalty" (by decide),
      e v "frequency_penalty" (by decide), e w "frequency_penalty" (by decide)]
  · simp only [readLocals, c v "temperature" (by decide), c w "temperature" (by decide),
      e v "temperature" (by decide), e w "temperature" (by decide)]

/-- Two bodies that differ in the `"prompt"` member only, with prompt lists of the same
first element, have the same run. -/
theorem run_eq_of_same_first {σ : Type} (E : Engine σ) (asserts : Bool)
    (modelList : List ModelInfo) (now : Int) (fields : QJsonObject) (v w : JsonValue) (s : σ)
    (h : (readPrompts (insert fields "prompt" v)).head? =
      (readPrompts (insert fields "prompt" w)).head?) :
    handleCompletionRequest E asserts modelList now
        (some (.object (insert fields "prompt" v))) s =
      handleCompletionRequest E asserts modelList now
        (some (.object (insert fields "prompt" w))) s := by
  obtain ⟨hm, ht, hte⟩ := readLocals_insert_prompt fields v w
  refine handleCompletionRequest_congr E asserts modelList now _ _ s ?_ ?_ h hm ht hte
  · rw [contains_insert_of_ne _ _ _ _ (by decide), contains_insert_of_ne _ _ _ _ (by decide)]
  · rw [value_insert_of_ne _ _ _ _ (by decide), value_insert_of_ne _ _ _ _ (by decide)]

theorem readPrompts_insert_array (fields : QJsonObject) (a : List JsonValue) :
    readPrompts (insert fields "prompt" (.array a)) = a.map JsonValue.toQString := by
  simp [readPrompts, contains_insert_self, value_insert_self, JsonValue.isString,
    JsonValue.toArray]

theorem readPrompts_insert_string (fields : QJsonObject) (p : QString) :
    readPrompts (insert fields "prompt" (.string p)) = [p] := by
  simp [readPrompts, contains_insert_self, value_insert_self, JsonValue.isString,
    JsonValue.toQString]

/-- C9. Only the first prompt drives generation: for an accepted request whose `"prompt"`
member is the array `[p0, ...]`, the string handed to the transcript notification and to
the generation call is `p0`; a request that differs only in the elements of `"prompt"`
after the first has the same run (the same engine calls with the same arguments, the same
final engine state and the same response); and a request whose `"prompt"` is the string
`p0` has the same run as one whose `"prompt"` is `[p0]`. -/
theorem only_first_prompt_is_used {σ : Type} (E : Engine σ) (asserts : Bool)
    (modelList : List ModelInfo) (now : Int) (fields : QJsonObject) (p0 : QString)
    (rest1 rest2 : List JsonValue) (s : σ)
    (h : accepted E asserts modelList
      (insert fields "prompt" (.array (.string p0 :: rest1))) s) :
    (∃ a, (handleCompletionRequest E asserts modelList now
          (some (.object (insert fields "prompt" (.array (.string p0 :: rest1))))) s).trace =
        [.loadModel (value fields "model").toQString, .resetContextProtected,
          .requestServerNewPromptResponsePair p0, .prompt a] ∧ a.prompt = p0) ∧
    handleCompletionRequest E asserts modelList now
        (some (.object (insert fields "prompt" (.array (.string p0 :: rest1))))) s =
      handleCompletionRequest E asserts modelList now
        (some (.object (insert fields "prompt" (.array (.string p0 :: rest2))))) s ∧
    handleCompletionRequest E asserts modelList now
        (some (.object (insert fields "prompt" (.string p0)))) s =
      handleCompletionRequest E asserts modelList now
        (some (.object (insert fields "prompt" (.array [.string p0])))) s := by
  refine ⟨?_, ?_, ?_⟩
  · have hfirst : (readPrompts (insert fields "prompt" (.array (.string p0 :: rest1)))).head? =
        some p0 := by
      rw [readPrompts_insert_array]; rfl
    have ht := trace_of_accepted E asserts modelList now _ s h p0 hfirst
    rw [value_insert_of_ne _ _ _ _ (by decide)] at ht
    exact ⟨_, ht, rfl⟩
  · apply run_eq_of_same_first
    rw [readPrompts_insert_array, readPrompts_insert_array]; rfl
  · apply run_eq_of_same_first
    rw [readPrompts_insert_array, readPrompts_insert_string]; rfl

/-- C9 at the requests `{"model": "x", "prompt": ["a", "b"]}` and
`{"model": "x", "prompt": ["a", "c", "d"]}`. -/
theorem only_first_prompt_is_used_witness :
    accepted sampleEngine true sampleModelList
      (insert [("model", .string ['x'])] "prompt" (.array [.string ['a'], .string ['b']])) () ∧
    ((∃ a, (handleCompletionRequest sampleEngine true sampleModelList 0
          (some (.object (insert [("model", .string ['x'])] "prompt"
            (.array (.string ['a'] :: [.string ['b']]))))) ()).trace =
        [.loadModel (value [("model", .string ['x'])] "model").toQString,
          .resetContextProtected, .requestServerNewPromptResponsePair ['a'], .prompt a] ∧
        a.prompt = ['a']) ∧
    handleCompletionRequest sampleEngine true sampleModelList 0
        (some (.object (insert [("model", .string ['x'])] "prompt"
          (.array (.string ['a'] :: [.string ['b']]))))) () =
      handleCompletionRequest sampleEngine true sampleModelList 0
        (some (.object (insert [("model", .string ['x'])] "prompt"
          (.array (.string ['a'] :: [.string ['c'], .string ['d']]))))) () ∧
    handleCompletionRequest sampleEngine true sampleModelList 0
        (some (.object (insert [("model", .string ['x'])] "prompt" (.string ['a'])))) () =
      handleCompletionRequest sampleEngine true sampleModelList 0
        (some (.object (insert [("model", .string ['x'])] "prompt"
          (.array [.string ['a']])))) ()) :=
  ⟨⟨rfl, rfl, rfl⟩, only_first_prompt_is_used sampleEngine true sampleModelList 0
    [("model", .string ['x'])] ['a'] [.string ['b']] [.string ['c'], .string ['d']] ()
    ⟨rfl, rfl, rfl⟩⟩

end Gpt4allServer
